import Mathlib

/-!
Verification of the `gent` snapshot-testing harness (`snap/snap.go`).

The Go source is shallowly embedded below: strings are Lean `String`s
(sequences of runes, matching Go's rune-level processing), the filesystem is
an association list from paths to contents, `tea.Model` is a record of pure
transition functions over an explicit state type, and `tea.Cmd` (a pure
`func() Msg`) is modelled by the `Msg` it yields when forced, with `none`
standing for a nil `Cmd`.  Go panics are modelled as `none` / dedicated
constructors; I/O is modelled as always succeeding apart from the
"file does not exist" case, which the source handles explicitly.
-/

namespace Snap

/-! ## Character-level string primitives used by the Go source -/

/-- Splitting a rune sequence at every occurrence of a separator, keeping
empty segments: the common semantics of Go's `bytes.Split` and
`strings.Split` for a one-byte separator.  `split "" = [""]`. -/
def splitOnChar (sep : Char) : List Char → List (List Char)
  | [] => [[]]
  | c :: rest =>
    match splitOnChar sep rest with
    | [] => [[]]
    | g :: gs => if c = sep then [] :: g :: gs else (c :: g) :: gs

/-- Whitespace predicate of Go's `unicode.IsSpace` restricted to the Latin-1
runes the harness can meet in script files ('\t', '\n', '\v', '\f', '\r',
' ', U+0085, U+00A0); the wider Unicode White_Space ranges are not modelled. -/
def goIsSpace (c : Char) : Bool :=
  c = ' ' || c = '\t' || c = '\n' || c = '\x0b' || c = '\x0c' || c = '\r' ||
    c = '\x85' || c = '\xa0'

/-- Dropping leading whitespace runes. -/
def trimLeftChars : List Char → List Char
  | [] => []
  | c :: rest => if goIsSpace c then trimLeftChars rest else c :: rest

/-- Go `bytes.TrimSpace`: drop leading and trailing whitespace runes. -/
def trimSpaceChars (l : List Char) : List Char :=
  (trimLeftChars (trimLeftChars l).reverse).reverse

/-- Go `strings.HasPrefix` on rune sequences (first argument is the
sought leading segment). -/
def startsWithChars : List Char → List Char → Bool
  | [], _ => true
  | _ :: _, [] => false
  | p :: ps, c :: cs => p = c && startsWithChars ps cs

/-! ## FilenameSanitizer (`ToSafeFilename`, `nonSafeFilenamePattern`) -/

/-- Membership in the character class `[0-9a-zA-Z-._]` of
`nonSafeFilenamePattern` (the regex matches the complement). -/
def safeFilenameChar (c : Char) : Bool :=
  ('0' ≤ c && c ≤ '9') || ('a' ≤ c && c ≤ 'z') || ('A' ≤ c && c ≤ 'Z') ||
    c = '-' || c = '.' || c = '_'

/-- Go `ToSafeFilename`: `nonSafeFilenamePattern.ReplaceAllString(s, "_")`
replaces every rune outside `[0-9a-zA-Z-._]` by one underscore. -/
def ToSafeFilename (s : String) : String :=
  String.mk (s.data.map (fun c => if safeFilenameChar c then c else '_'))

/-! ## EventDecoder (`createKey`) and bubbletea messages -/

/-- The `tea.KeyType` values `createKey` produces. -/
inductive KeyType where
  | keyEnter
  | keyTab
  | keyEsc
  | keyUp
  | keyDown
  | keyRunes
deriving DecidableEq

/-- Go `tea.KeyMsg` restricted to the two fields `createKey` sets:
`Type` and `Runes`. -/
structure KeyMsg where
  ty : KeyType
  runes : List Char
deriving DecidableEq

/-- Go `createKey`: five reserved tokens map to named keys, everything else
becomes a `KeyRunes` message carrying the token's runes verbatim. -/
def createKey (s : String) : KeyMsg :=
  if s = "enter" then KeyMsg.mk KeyType.keyEnter []
  else if s = "tab" then KeyMsg.mk KeyType.keyTab []
  else if s = "esc" then KeyMsg.mk KeyType.keyEsc []
  else if s = "up" then KeyMsg.mk KeyType.keyUp []
  else if s = "down" then KeyMsg.mk KeyType.keyDown []
  else KeyMsg.mk KeyType.keyRunes s.data

/-- Go `tea.Msg` (an `interface{}`), restricted to the values that can flow
through this harness: key messages, application-defined messages, and —
because `RunBubbleTeaSnapshots` passes `m.Init()`'s `tea.Cmd` itself as a
`tea.Msg` — a wrapped command value.  A non-nil `tea.Cmd` (pure
`func() tea.Msg`) is represented by the message it yields when forced;
`cmdMsg` wraps a non-nil command delivered as a message, `nilCmdMsg` a nil
one. -/
inductive Msg where
  | key : KeyMsg → Msg
  | custom : String → Msg
  | cmdMsg : Msg → Msg
  | nilCmdMsg : Msg
deriving DecidableEq

/-- Wrapping an optional `tea.Cmd` value as the `tea.Msg` it becomes when
passed through the `interface{}` parameter of `runUpdates`. -/
def wrapCmd : Option Msg → Msg
  | none => Msg.nilCmdMsg
  | some c => Msg.cmdMsg c

/-! ## ScriptParser (`readMessageGroups`) -/

/-- The `continue` condition of Go `readMessageGroups`' loop: the trimmed
line is empty or starts with `#` or `//`. -/
def skipLine (line : List Char) : Bool :=
  decide (line = []) || startsWithChars ['#'] line || startsWithChars ['/', '/'] line

/-- Go `readMessageGroups`' per-file parsing loop: split the content on
'\n'; trim each line; skip lines that are empty after trimming or start
with `#` or `//`; split every remaining line on ',' into one token group,
appending groups in line order. -/
def parseMessageGroups (content : String) : List (List String) :=
  (splitOnChar '\n' content.data).foldl
    (fun groups each =>
      let line := trimSpaceChars each
      if skipLine line then groups
      else groups ++ [(splitOnChar ',' line).map String.mk])
    []

/-- Restatement of the spec's parsing rule as a map/filter/map pipeline
(trim all lines, drop blank and comment lines, split survivors on ',').
Used only to compare against `parseMessageGroups`, which mirrors the
source's accumulating loop. -/
def parseMessageGroupsSpec (content : String) : List (List String) :=
  (((splitOnChar '\n' content.data).map trimSpaceChars).filter
      (fun line => !skipLine line)).map
    (fun line => (splitOnChar ',' line).map String.mk)

/-! ## Filesystem model -/

/-- A filesystem as an association list from file paths to contents; absent
keys model "file does not exist". -/
abbrev Fs : Type := List (String × String)

/-- Looking a path up (Go `os.ReadFile`; `none` is the `os.IsNotExist`
case, other I/O errors are not modelled). -/
def fsRead : Fs → String → Option String
  | [], _ => none
  | (q, c) :: rest, p => if q = p then some c else fsRead rest p

/-- Replacing (or creating) a file's content (Go `os.WriteFile`). -/
def fsWrite : Fs → String → String → Fs
  | [], p, c => [(p, c)]
  | (q, d) :: rest, p, c =>
    if q = p then (q, c) :: rest else (q, d) :: fsWrite rest p c

/-- Go `filepath.Join` for the already-clean, relative components the
harness builds (empty components are dropped; `Clean` rewriting such as
`..` elimination is not modelled). -/
def filepathJoin (a b : String) : String :=
  if a = "" then b else if b = "" then a else a ++ "/" ++ b

/-! ## SnapshotStore (`Snapshot.Run`, `read`, `write`) -/

/-- Observable outcome of one `Snapshot.Run` call: the file's content after
the call (`none` = still absent), the `equal` invocations it performed
(arguments in Go order: expected, actual, message), and whether `write` was
called.  `Run` returns a Go `error` only on unexpected I/O failure, which
is not modelled, so the run itself always succeeds here. -/
structure RunOut where
  file : Option String
  compares : List (String × String × String)
  wrote : Bool
deriving DecidableEq

/-- Go `Snapshot.Run` over the state of the snapshot's single file:
read the content (absent file reads as ""), in verify mode with non-empty
content call `equal(content, view, name)` and stop, otherwise write `view`
whenever it differs from the content. -/
def snapshotRun (verify : Bool) (name : String) (file : Option String)
    (view : String) : RunOut :=
  let content := file.getD ""
  if verify = true ∧ content ≠ "" then RunOut.mk file [(content, view, name)] false
  else if view ≠ content then RunOut.mk (some view) [] true
  else RunOut.mk file [] false

/-- Folding a sequence of `Run` calls (verify flag, rendered view) over one
snapshot file's state, as repeated calls on `Snapshot`s resolving to the
same path perform. -/
def applyRuns (name : String) : List (Bool × String) → Option String → Option String
  | [], f => f
  | (v, view) :: rest, f => applyRuns name rest (snapshotRun v name f view).file

/-- Go `Snapshot.Run` lifted to the whole filesystem for a snapshot created
by `NewSnapshot name` under `rootDir` (`deriveSnapshotFilep` joins the two). -/
def snapRunFs (verify : Bool) (rootDir name view : String) (fs : Fs) :
    Fs × List (String × String × String) :=
  let filep := filepathJoin rootDir name
  let out := snapshotRun verify name (fsRead fs filep) view
  (if out.wrote then fsWrite fs filep view else fs, out.compares)

/-! ## ScriptParser entry point (`readMessageGroups` with its panic) -/

/-- Result of Go `readMessageGroups`: the function's only exit paths are
returning the parsed groups or panicking when `os.ReadFile` fails — its
signature has no error return. -/
inductive ParseOutcome where
  | groups : List (List String) → ParseOutcome
  | panicked : ParseOutcome
deriving DecidableEq

/-- Go `readMessageGroups`: read `rootDir/id.txt`; panic when the file
cannot be read; otherwise parse it. -/
def readMessageGroupsRun (fs : Fs) (snapshotRootDir id : String) : ParseOutcome :=
  match fsRead fs (filepathJoin snapshotRootDir (id ++ ".txt")) with
  | none => ParseOutcome.panicked
  | some content => ParseOutcome.groups (parseMessageGroups content)

/-! ## ReplayEngine (`RunBubbleTeaSnapshots`, `runUpdates`) -/

/-- Go `tea.Model` as a pure transition system over an explicit state type:
`Init() tea.Cmd`, `Update(tea.Msg) (tea.Model, tea.Cmd)`, `View() string`,
with a `tea.Cmd` modelled by the `Msg` it yields when forced (`none` =
nil `Cmd`). -/
structure TeaModel (σ : Type) where
  init : σ → Option Msg
  update : σ → Msg → σ × Option Msg
  view : σ → String

/-- The settle loop of Go `runUpdates` after its first `Update` call, with
`counter` holding the value Go's counter has on entry of the iteration
(initially 100): while the command is non-nil, force it, call `Update`,
decrement the counter and panic (`none`) when it reaches zero — even when
that very update returned a nil command. -/
def settleLoop {σ : Type} (M : TeaModel σ) : Nat → σ → Option Msg → Option σ
  | _, s, none => some s
  | counter, s, some c =>
    let p := M.update s c
    match counter with
    | 0 => none
    | 1 => none
    | n + 2 => settleLoop M (n + 1) p.1 p.2

/-- Variant of `settleLoop` additionally counting the `Update` calls the
loop performs before returning or panicking; `settleLoop_eq_count` below
shows it computes the same result. -/
def settleLoopCount {σ : Type} (M : TeaModel σ) : Nat → σ → Option Msg → Option σ × Nat
  | _, s, none => (some s, 0)
  | counter, s, some c =>
    let p := M.update s c
    match counter with
    | 0 => (none, 1)
    | 1 => (none, 1)
    | n + 2 =>
      let r := settleLoopCount M (n + 1) p.1 p.2
      (r.1, r.2 + 1)

/-- Reference iteration of the model's effect chain: apply `Update` to the
pending command `n` times (stopping at a nil command).  Used to state when
a chain "yields no further event within k steps". -/
def iterUpdates {σ : Type} (M : TeaModel σ) : Nat → σ × Option Msg → σ × Option Msg
  | 0, p => p
  | _ + 1, (s, none) => (s, none)
  | n + 1, (s, some c) => iterUpdates M n (M.update s c)

/-- Go `runUpdates`: one `Update` with the given message, then the settle
loop with counter 100; `none` models the "eternal loop" panic. -/
def runUpdates {σ : Type} (M : TeaModel σ) (s : σ) (msg : Msg) : Option σ :=
  let p := M.update s msg
  settleLoop M 100 p.1 p.2

/-- Delivering one message group: `m = runUpdates(m, createKey(each))` for
each token in order; `none` propagates a settle panic. -/
def deliverGroup {σ : Type} (M : TeaModel σ) : σ → List String → Option σ
  | s, [] => some s
  | s, tok :: rest =>
    match runUpdates M s (Msg.key (createKey tok)) with
    | none => none
    | some s2 => deliverGroup M s2 rest

/-- Go `fmt.Sprintf("%03d", i)` for a non-negative `i`: zero-pad the
decimal representation to a minimum width of 3. -/
def sprintf03 (i : Nat) : String :=
  if i < 10 then "00" ++ Nat.repr i
  else if i < 100 then "0" ++ Nat.repr i
  else Nat.repr i

/-- Observable trace of one `RunBubbleTeaSnapshots` call: the final
filesystem, the names handed to `NewSnapshot` in order, the view strings
handed to `Snapshot.Run` in order, and all `equal` invocations. -/
structure EngineTrace where
  fs : Fs
  names : List String
  views : List String
  compares : List (String × String × String)
deriving DecidableEq

/-- The `for i, group := range messageGroups` loop of
`RunBubbleTeaSnapshots`: deliver each group, then run snapshot `i + 1`,
accumulating the trace; `none` propagates a panic. -/
def engineGroups {σ : Type} (M : TeaModel σ) (verify : Bool) (rootDir seriesID : String) :
    List (List String) → Nat → σ → Fs → List String → List String →
      List (String × String × String) → Option EngineTrace
  | [], _, _, fs, names, views, comps => some (EngineTrace.mk fs names views comps)
  | g :: gs, i, s, fs, names, views, comps =>
    match deliverGroup M s g with
    | none => none
    | some s2 =>
      let name := seriesID ++ "_" ++ sprintf03 (i + 1)
      let v := M.view s2
      let r := snapRunFs verify rootDir name v fs
      engineGroups M verify rootDir seriesID gs (i + 1) s2 r.1 (names ++ [name])
        (views ++ [v]) (comps ++ r.2)

/-- Go `RunBubbleTeaSnapshots`: read the message groups (panicking when the
script is unreadable), call `Init`, call `View` once with the result
discarded (pure here, so omitted), pass the raw `Init` command value as the
message of one `runUpdates` call, take snapshot 0 of the settled state,
then replay each group with a snapshot after it.  Snapshot `i` is named
`seriesID + "_" + sprintf03 i` and run against
`filepathJoin rootDir name`; a failing `Snapshot.Run` would panic, but its
only modelled behaviour always succeeds. -/
def runBubbleTeaSnapshots {σ : Type} (M : TeaModel σ) (m0 : σ) (rootDir : String)
    (verify : Bool) (seriesID : String) (fs0 : Fs) : Option EngineTrace :=
  match readMessageGroupsRun fs0 rootDir seriesID with
  | ParseOutcome.panicked => none
  | ParseOutcome.groups messageGroups =>
    let cmd := M.init m0
    match runUpdates M m0 (wrapCmd cmd) with
    | none => none
    | some m1 =>
      let name0 := seriesID ++ "_" ++ sprintf03 0
      let v0 := M.view m1
      let r0 := snapRunFs verify rootDir name0 v0 fs0
      engineGroups M verify rootDir seriesID messageGroups 0 m1 r0.1 [name0] [v0] r0.2

/-- The snapshot names the group loop of `RunBubbleTeaSnapshots` generates
for the given groups when the loop counter starts at `i`: one name
`seriesID + "_" + sprintf03 (position + 1)` per group. -/
def namesFor (seriesID : String) : List (List String) → Nat → List String
  | [], _ => []
  | _ :: gs, i => (seriesID ++ "_" ++ sprintf03 (i + 1)) :: namesFor seriesID gs (i + 1)

/-! ## Concrete components used as test vehicles -/

/-- A component with no initial effect, no follow-up effects and a constant
view. -/
def Munit : TeaModel Unit :=
  TeaModel.mk (fun _ => none) (fun s _ => (s, none)) (fun _ => "v")

/-- A component whose state counts its `update` calls: it renders "A" while
no update has happened and "B" afterwards; no effects anywhere. -/
def Mcount : TeaModel Nat :=
  TeaModel.mk (fun _ => none) (fun n _ => (n + 1, none))
    (fun n => if n = 0 then "A" else "B")

/-- A fixed application message used to build effect chains. -/
def ck : Msg := Msg.custom "k"

/-- A component whose effect chain yields "no further event" after exactly
100 update steps: starting from state 0, the n-th update returns a further
effect while n < 100 and none at n = 100. -/
def Mconv100 : TeaModel Nat :=
  TeaModel.mk (fun _ => none)
    (fun n _ => (n + 1, if n + 1 < 100 then some ck else none))
    (fun _ => "")

/-- A component whose effect chain never yields "no further event": every
update returns a further effect. -/
def Mdiv : TeaModel Nat :=
  TeaModel.mk (fun _ => none) (fun n _ => (n + 1, some ck)) (fun _ => "")

/-! ## Helper lemmas -/

theorem getD_map_sanitize (l : List Char) :
    ∀ i : Nat,
      (l.map (fun c => if safeFilenameChar c then c else '_')).getD i '_' =
        (if safeFilenameChar (l.getD i '_') then l.getD i '_' else '_') := by
  induction l with
  | nil => intro i; simp
  | cons c rest ih =>
    intro i
    cases i with
    | zero => simp [List.getD]
    | succ j => simpa [List.getD] using ih j

theorem parse_foldl_eq (ls : List (List Char)) :
    ∀ acc : List (List String),
      ls.foldl
          (fun groups each =>
            let line := trimSpaceChars each
            if skipLine line then groups
            else groups ++ [(splitOnChar ',' line).map String.mk]) acc =
        acc ++ ((ls.map trimSpaceChars).filter (fun line => !skipLine line)).map
          (fun line => (splitOnChar ',' line).map String.mk) := by
  induction ls with
  | nil => intro acc; simp
  | cons hd tl ih =>
    intro acc
    cases hskip : skipLine (trimSpaceChars hd) with
    | true => simp [hskip, ih]
    | false => simp [hskip, ih]

/-! ## Claim C9 — sanitizer character set and length preservation -/

/-- C9: for every string `s`, `ToSafeFilename s` contains only characters
from `[0-9A-Za-z-._]`, has the same length as `s` (lengths in characters,
matching the rune-level matching of Go's regexp), and is a one-for-one
replacement: position by position, a safe character is kept and an unsafe
one becomes a single underscore, with no collapsing. -/
theorem c9_sanitize_safe_and_length_preserving (s : String) :
    (ToSafeFilename s).length = s.length ∧
      (∀ c, c ∈ (ToSafeFilename s).data → safeFilenameChar c = true) ∧
      (∀ i : Nat,
        (ToSafeFilename s).data.getD i '_' =
          (if safeFilenameChar (s.data.getD i '_') then s.data.getD i '_' else '_')) := by
  refine ⟨?_, ?_, ?_⟩
  · exact List.length_map s.data _
  · intro c hc
    simp only [ToSafeFilename, List.mem_map] at hc
    obtain ⟨a, _, rfl⟩ := hc
    by_cases ha : safeFilenameChar a = true
    · simp [ha]
    · rw [if_neg ha]; decide
  · intro i
    simpa [ToSafeFilename] using getD_map_sanitize s.data i

/-- Witness for C9 at the concrete input "a/b" (sanitized to "a_b"). -/
theorem c9_sanitize_witness :
    (ToSafeFilename "a/b").length = ("a/b" : String).length ∧
      safeFilenameChar '_' = true :=
  ⟨(c9_sanitize_safe_and_length_preserving "a/b").1,
    (c9_sanitize_safe_and_length_preserving "a/b").2.1 '_' (by decide)⟩

/-! ## Claim C10 — script tokens are not trimmed and may be empty -/

/-- C10: tokens are split on ',' without individual trimming: the line
"a, b" parses to one group whose second token is " b" (decoding to the
literal-text event carrying " b", distinct from the one carrying "b"),
and consecutive or trailing commas produce empty tokens that decode to
literal-text events with empty rune lists. -/
theorem c10_tokens_untrimmed_and_possibly_empty :
    parseMessageGroups "a, b" = [["a", " b"]] ∧
      createKey " b" = KeyMsg.mk KeyType.keyRunes [' ', 'b'] ∧
      createKey " b" ≠ createKey "b" ∧
      createKey "" = KeyMsg.mk KeyType.keyRunes [] ∧
      parseMessageGroups "a,,b" = [["a", "", "b"]] ∧
      parseMessageGroups "a," = [["a", ""]] := by
  refine ⟨by decide, by decide, by decide, by decide, by decide, by decide⟩

/-! ## Claim C7 — script parsing pipeline and the two-group example -/

/-- C7: the source's accumulating parse loop coincides with the spec's
split-trim-skip-split pipeline on every file content, and the file
"a,b\n# comment\n\nc" parses to exactly the two groups ["a","b"] and ["c"],
which decode (via `createKey`) to the corresponding literal-text events,
in line order. -/
theorem c7_script_parsing :
    (∀ content : String, parseMessageGroups content = parseMessageGroupsSpec content) ∧
      parseMessageGroups "a,b\n# comment\n\nc" = [["a", "b"], ["c"]] ∧
      (parseMessageGroups "a,b\n# comment\n\nc").map (fun g => g.map createKey) =
        [[createKey "a", createKey "b"], [createKey "c"]] := by
  refine ⟨?_, by decide, by decide⟩
  intro content
  simpa [parseMessageGroups, parseMessageGroupsSpec] using
    parse_foldl_eq (splitOnChar '\n' content.data) []

/-! ## Claim C8 — missing script file is fatal, never a recoverable error -/

/-- C8: whenever the backing file `rootDir/runID.txt` cannot be read,
`readMessageGroups` panics (its signature has no error return, so no
recoverable error value can reach the caller): the outcome is `panicked`
and is no `groups` value. -/
theorem c8_missing_script_is_fatal (fs : Fs) (rootDir runID : String)
    (h : fsRead fs (filepathJoin rootDir (runID ++ ".txt")) = none) :
    readMessageGroupsRun fs rootDir runID = ParseOutcome.panicked ∧
      ∀ gs, readMessageGroupsRun fs rootDir runID ≠ ParseOutcome.groups gs := by
  unfold readMessageGroupsRun
  rw [h]
  exact ⟨rfl, fun gs => by simp⟩

/-- Witness for C8: the empty filesystem has no "root/r.txt". -/
theorem c8_missing_script_is_fatal_witness :
    readMessageGroupsRun [] "root" "r" = ParseOutcome.panicked :=
  (c8_missing_script_is_fatal [] "root" "r" (by decide)).1

/-! ## Claim C5 — steady-state verify never mutates and compares once -/

/-- C5: with `verify = true` and non-empty stored content `c`, `Run view`
invokes the compare function exactly once with arguments
`(c, view, name)`, performs no write and leaves the file unchanged — for
every `view`, including `view ≠ c`.  (`Run`'s error return concerns only
unexpected I/O failure, which is outside the model, so the run also
returns success regardless of what `compare` reports.) -/
theorem c5_verify_steady_state (name c view : String) (h : c ≠ "") :
    snapshotRun true name (some c) view =
      RunOut.mk (some c) [(c, view, name)] false := by
  simp [snapshotRun, h]

/-- Witness for C5 with stored "x" and differing rendered "y". -/
theorem c5_verify_steady_state_witness :
    snapshotRun true "n" (some "x") "y" =
      RunOut.mk (some "x") [("x", "y", "n")] false :=
  c5_verify_steady_state "n" "x" "y" (by decide)

/-! ## Claim C6 — bootstrap mode always leaves content = rendered -/

/-- C6: with `verify = false`, after `Run view` the file content (an absent
file reading as "", not as an error) equals `view`, no compare happens,
and when the prior content already equals `view` nothing is written and
the file state is untouched. -/
theorem c6_bootstrap_writes_rendered (name : String) (file : Option String) (view : String) :
    (snapshotRun false name file view).file.getD "" = view ∧
      (snapshotRun false name file view).compares = [] ∧
      (file.getD "" = view →
        (snapshotRun false name file view).wrote = false ∧
          (snapshotRun false name file view).file = file) := by
  by_cases h : view = file.getD ""
  · refine ⟨?_, ?_, fun _ => ⟨?_, ?_⟩⟩ <;> simp [snapshotRun, h]
  · refine ⟨?_, ?_, fun he => absurd he.symm h⟩ <;> simp [snapshotRun, h]

/-- Witness for C6: prior content "a" equal to the rendered view. -/
theorem c6_bootstrap_writes_rendered_witness :
    (snapshotRun false "n" (some "a") "a").file.getD "" = "a" ∧
      (snapshotRun false "n" (some "a") "a").wrote = false :=
  ⟨(c6_bootstrap_writes_rendered "n" (some "a") "a").1,
    ((c6_bootstrap_writes_rendered "n" (some "a") "a").2.2 (by decide)).1⟩

/-! ## Claim C4 — overwrite invariant -/

/-- C4 counterexample: on one file, the runs (verify=false, "a") then
(verify=false, "") leave the file written with empty content; a third run
with verifyMode = true and rendered "b" then overwrites that content (the
store treats empty stored content as "no baseline yet" even in verify
mode).  The claim as stated — once written, the content is only ever
overwritten by a verifyMode=false run with mismatching content — is
therefore false at this sequence. -/
theorem c4_counterexample :
    applyRuns "n" [(false, "a"), (false, "")] none = some "" ∧
      applyRuns "n" [(false, "a"), (false, ""), (true, "b")] none = some "b" ∧
      snapshotRun true "n" (some "") "b" = RunOut.mk (some "b") [] true ∧
      ("b" : String) ≠ "" := by
  refine ⟨by decide, by decide, by decide, by decide⟩

/-- C4 amended: once the file holds NON-EMPTY content `c`, any `Run` that
changes the file state has `verify = false` and a rendered view different
from `c` (and the new content is that view).  This holds at every file
state, hence at every point of every sequence of `Run` calls; a file
holding empty content is the one extra case the original claim missed. -/
theorem c4_overwrite_only_nonverify_mismatch (name c : String) (v : Bool) (view : String)
    (hc : c ≠ "") (hchange : (snapshotRun v name (some c) view).file ≠ some c) :
    v = false ∧ view ≠ c ∧ (snapshotRun v name (some c) view).file = some view := by
  cases v with
  | true => exact absurd (by simp [snapshotRun, hc]) hchange
  | false =>
    by_cases hv : view = c
    · exact absurd (by simp [snapshotRun, hv]) hchange
    · exact ⟨rfl, hv, by simp [snapshotRun, hv]⟩

/-- Witness for the amended C4: stored "x", non-verifying run rendering "y". -/
theorem c4_overwrite_only_nonverify_mismatch_witness :
    (false = false) ∧ ("y" : String) ≠ "x" ∧
      (snapshotRun false "n" (some "x") "y").file = some "y" :=
  c4_overwrite_only_nonverify_mismatch "n" "x" false "y" (by decide) (by decide)

/-! ## Claim C3 — the 100-iteration settle fuse -/

theorem settleLoop_eq_count {σ : Type} (M : TeaModel σ) :
    ∀ (n : Nat) (s : σ) (oc : Option Msg),
      settleLoop M n s oc = (settleLoopCount M n s oc).1 := by
  intro n
  induction n using Nat.strong_induction_on with
  | _ n ih =>
    intro s oc
    cases oc with
    | none =>
      match n with
      | 0 => rfl
      | 1 => rfl
      | m + 2 => rfl
    | some c =>
      match n with
      | 0 => rfl
      | 1 => rfl
      | m + 2 =>
        have h1 : settleLoop M (m + 2) s (some c) =
            settleLoop M (m + 1) (M.update s c).1 (M.update s c).2 := rfl
        have h2 : (settleLoopCount M (m + 2) s (some c)).1 =
            (settleLoopCount M (m + 1) (M.update s c).1 (M.update s c).2).1 := rfl
        rw [h1, h2]
        exact ih (m + 1) (by omega) _ _

theorem settleLoop_converges {σ : Type} (M : TeaModel σ) :
    ∀ (n : Nat) (s : σ) (oc : Option Msg),
      (∃ j, j ≤ n ∧ (iterUpdates M j (s, oc)).2 = none) →
      ∃ s2, settleLoop M (n + 1) s oc = some s2 := by
  intro n
  induction n with
  | zero =>
    intro s oc h
    obtain ⟨j, hj, hnone⟩ := h
    interval_cases j
    exact ⟨s, by cases oc <;> simp_all [iterUpdates, settleLoop]⟩
  | succ n ih =>
    intro s oc h
    cases oc with
    | none => exact ⟨s, rfl⟩
    | some c =>
      obtain ⟨j, hj, hnone⟩ := h
      cases j with
      | zero => simp [iterUpdates] at hnone
      | succ j' =>
        have hstep : iterUpdates M (j' + 1) (s, some c) = iterUpdates M j' (M.update s c) := rfl
        rw [hstep] at hnone
        have := ih (M.update s c).1 (M.update s c).2 ⟨j', by omega, by simpa using hnone⟩
        obtain ⟨s2, hs2⟩ := this
        exact ⟨s2, by
          have hl : settleLoop M (n + 2) s (some c) =
              settleLoop M (n + 1) (M.update s c).1 (M.update s c).2 := rfl
          rw [hl, hs2]⟩

theorem settleLoopCount_diverges {σ : Type} (M : TeaModel σ) :
    ∀ (n : Nat) (s : σ) (c : Msg),
      (∀ j, (iterUpdates M j (s, some c)).2 ≠ none) →
      settleLoopCount M (n + 1) s (some c) = (none, n + 1) := by
  intro n
  induction n with
  | zero => intro s c _; rfl
  | succ n ih =>
    intro s c h
    have h1 : (iterUpdates M 1 (s, some c)).2 ≠ none := h 1
    have hstep : iterUpdates M 1 (s, some c) = iterUpdates M 0 (M.update s c) := rfl
    rw [hstep] at h1
    obtain ⟨c2, hc2⟩ : ∃ c2, (M.update s c).2 = some c2 := by
      cases hu : (M.update s c).2 with
      | none => exact absurd (by simp [iterUpdates, hu]) h1
      | some c2 => exact ⟨c2, rfl⟩
    have htrans : ∀ j, (iterUpdates M j ((M.update s c).1, some c2)).2 ≠ none := by
      intro j
      have := h (j + 1)
      have hstep2 : iterUpdates M (j + 1) (s, some c) = iterUpdates M j (M.update s c) := rfl
      rw [hstep2] at this
      have hpair : M.update s c = ((M.update s c).1, some c2) := by
        rw [← hc2]
      rwa [hpair] at this
    have hrec : settleLoopCount M (n + 2) s (some c) =
        ((settleLoopCount M (n + 1) (M.update s c).1 (M.update s c).2).1,
          (settleLoopCount M (n + 1) (M.update s c).1 (M.update s c).2).2 + 1) := rfl
    rw [hrec, hc2, ih (M.update s c).1 c2 htrans]

/-- C3 counterexample: `Mconv100`'s effect chain yields "no further event"
within 100 steps (at its 100th update exactly), yet the settle loop starting
with counter 100 still panics: the fuse fires after the 100th loop update
regardless of whether that update returned a further effect, so a chain
converging only at step 100 does not settle. -/
theorem c3_counterexample :
    (iterUpdates Mconv100 100 (0, some ck)).2 = none ∧
      settleLoop Mconv100 100 0 (some ck) = none := by
  refine ⟨by decide, by decide⟩

/-- C3 amended: a component whose effect chain yields "no further event"
within 99 steps settles without the fatal fuse triggering (a chain that
converges only at step 100 also trips the fuse, see `c3_counterexample`);
a component whose chain never yields "no further event" triggers the fuse
at exactly iteration 100: the loop performs precisely 100 update calls and
panics. -/
theorem c3_settle_fuse (σ : Type) (M : TeaModel σ) (s : σ) (c : Msg) :
    ((∃ j, j ≤ 99 ∧ (iterUpdates M j (s, some c)).2 = none) →
        ∃ s2, settleLoop M 100 s (some c) = some s2) ∧
      ((∀ j, (iterUpdates M j (s, some c)).2 ≠ none) →
        settleLoop M 100 s (some c) = none ∧
          settleLoopCount M 100 s (some c) = (none, 100)) := by
  constructor
  · intro h
    exact settleLoop_converges M 99 s (some c) h
  · intro h
    have hd := settleLoopCount_diverges M 99 s c h
    exact ⟨by rw [settleLoop_eq_count, hd], hd⟩

theorem Mdiv_iter : ∀ (j n : Nat), iterUpdates Mdiv j (n, some ck) = (n + j, some ck) := by
  intro j
  induction j with
  | zero => intro n; rfl
  | succ j ih =>
    intro n
    have hstep : iterUpdates Mdiv (j + 1) (n, some ck) =
        iterUpdates Mdiv j (n + 1, some ck) := rfl
    rw [hstep, ih]
    ext
    · omega
    · rfl

/-- Witness for the amended C3: `Mcount`'s chain converges at step 1 and
settles; `Mdiv`'s chain never converges and the fuse fires after exactly
100 update calls. -/
theorem c3_settle_fuse_witness :
    (∃ s2, settleLoop Mcount 100 0 (some ck) = some s2) ∧
      settleLoop Mdiv 100 0 (some ck) = none ∧
      settleLoopCount Mdiv 100 0 (some ck) = (none, 100) := by
  have hdiv : ∀ j, (iterUpdates Mdiv j (0, some ck)).2 ≠ none := by
    intro j
    rw [Mdiv_iter j 0]
    simp
  refine ⟨(c3_settle_fuse Nat Mcount 0 ck).1 ⟨1, by omega, by decide⟩,
    ((c3_settle_fuse Nat Mdiv 0 ck).2 hdiv).1,
    ((c3_settle_fuse Nat Mdiv 0 ck).2 hdiv).2⟩

/-! ## Engine trace lemmas -/

theorem namesFor_length (seriesID : String) :
    ∀ (gs : List (List String)) (i : Nat), (namesFor seriesID gs i).length = gs.length := by
  intro gs
  induction gs with
  | nil => intro i; rfl
  | cons g gst ih => intro i; simp [namesFor, ih]

theorem namesFor_getD (seriesID : String) :
    ∀ (gs : List (List String)) (i k : Nat), k < gs.length →
      (namesFor seriesID gs i).getD k "" = seriesID ++ "_" ++ sprintf03 (i + 1 + k) := by
  intro gs
  induction gs with
  | nil => intro i k hk; simp at hk
  | cons g gst ih =>
    intro i k hk
    cases k with
    | zero => simp [namesFor, List.getD]
    | succ k' =>
      have harith : i + 1 + 1 + k' = i + 1 + (k' + 1) := by omega
      have := ih (i + 1) k' (by simpa using hk)
      simpa [namesFor, List.getD, harith] using this

theorem engineGroups_trace {σ : Type} (M : TeaModel σ) (verify : Bool)
    (rootDir seriesID : String) :
    ∀ (gs : List (List String)) (i : Nat) (s : σ) (fs : Fs) (names views : List String)
      (comps : List (String × String × String)) (tr : EngineTrace),
      engineGroups M verify rootDir seriesID gs i s fs names views comps = some tr →
      tr.names = names ++ namesFor seriesID gs i ∧ ∃ suf, tr.views = views ++ suf := by
  intro gs
  induction gs with
  | nil =>
    intro i s fs names views comps tr h
    cases h
    exact ⟨by simp [namesFor], ⟨[], by simp⟩⟩
  | cons g gst ih =>
    intro i s fs names views comps tr h
    rw [engineGroups] at h
    split at h
    · exact absurd h (by simp)
    · obtain ⟨hn, suf, hv⟩ := ih (i + 1) _ _ _ _ _ tr h
      refine ⟨by simpa [namesFor] using hn, ⟨(M.view ‹σ›) :: suf, by simpa using hv⟩⟩

/-! ## Claim C1 — snapshot naming -/

/-- C1 counterexample: for runID "a b", `RunBubbleTeaSnapshots` hands the
SnapshotStore the UNSANITIZED name "a b_000" and derives the file path
"root/a b_000" from it; the sanitized name required by the claim would be
`ToSafeFilename "a b_000" = "a_b_000"`.  `ToSafeFilename` is never applied
inside the engine. -/
theorem c1_counterexample :
    runBubbleTeaSnapshots Munit () "root" false "a b" [("root/a b.txt", "")] =
        some (EngineTrace.mk [("root/a b.txt", ""), ("root/a b_000", "v")]
          ["a b_000"] ["v"] []) ∧
      ToSafeFilename "a b_000" = "a_b_000" ∧
      ("a b_000" : String) ≠ "a_b_000" := by
  refine ⟨by decide, by decide, by decide⟩

/-- C1 amended: the name handed to the SnapshotStore for snapshot `i` of
run `seriesID` is exactly `seriesID + "_" + i` zero-padded to 3 digits,
handed as-is: the engine applies no sanitization before
`deriveSnapshotFilep` joins the suite root with the name. -/
theorem c1_snapshot_names (σ : Type) (M : TeaModel σ) (m0 : σ) (rootDir : String)
    (verify : Bool) (seriesID : String) (fs0 : Fs) (tr : EngineTrace)
    (h : runBubbleTeaSnapshots M m0 rootDir verify seriesID fs0 = some tr) :
    ∀ i, i < tr.names.length → tr.names.getD i "" = seriesID ++ "_" ++ sprintf03 i := by
  simp only [runBubbleTeaSnapshots] at h
  split at h
  · exact absurd h (by simp)
  · rename_i gs hgs
    split at h
    · exact absurd h (by simp)
    · rename_i m1 hm1
      obtain ⟨hn, -⟩ := engineGroups_trace M verify rootDir seriesID gs 0 m1 _ _ _ _ tr h
      intro i hi
      rw [hn]
      cases i with
      | zero => simp [List.getD]
      | succ k =>
        rw [hn] at hi
        have hk : k < gs.length := by
          have := namesFor_length seriesID gs 0
          simp [this] at hi
          omega
        have hget := namesFor_getD seriesID gs 0 k hk
        have harith : 0 + 1 + k = k + 1 := by omega
        rw [harith] at hget
        simpa [List.getD] using hget

/-- Witness for the amended C1: a trivial component with an empty script
produces the single snapshot name "run_000". -/
theorem c1_snapshot_names_witness :
    (EngineTrace.mk [("root/run.txt", ""), ("root/run_000", "v")]
        ["run_000"] ["v"] []).names.getD 0 "" = "run" ++ "_" ++ sprintf03 0 :=
  c1_snapshot_names Unit Munit () "root" false "run" [("root/run.txt", "")]
    (EngineTrace.mk [("root/run.txt", ""), ("root/run_000", "v")] ["run_000"] ["v"] [])
    (by decide) 0 (by decide)

/-! ## Claim C2 — what happens between init and snapshot 0 -/

/-- C2 counterexample: `Mcount` renders "A" iff no `update` call has
happened.  Its `init` returns no Effect, yet snapshot 0 records "B":
`RunBubbleTeaSnapshots` made an `update` call before snapshot 0 (it passes
the raw — here nil — `Init` command value itself as a message to one
unconditional `runUpdates` call instead of skipping the update), so the
claim's "no update call is made before snapshot index 0" is false. -/
theorem c2_counterexample :
    Mcount.init 0 = none ∧
      runBubbleTeaSnapshots Mcount 0 "root" false "run" [("root/run.txt", "")] =
        some (EngineTrace.mk [("root/run.txt", ""), ("root/run_000", "B")]
          ["run_000"] ["B"] []) ∧
      Mcount.view 0 = "A" ∧
      ("B" : String) ≠ "A" := by
  refine ⟨by decide, by decide, by decide, by decide⟩

/-- C2 amended: after `init`, the engine always makes exactly one
`runUpdates` call whose message is the raw initial command value itself
(`wrapCmd (M.init m0)` — the `tea.Cmd`, possibly nil, passed through the
`tea.Msg` interface without being forced), settles the effects that update
returns, and snapshot 0 records the view of the state so obtained; in
particular an update call precedes snapshot 0 even when `init` returns no
Effect. -/
theorem c2_init_settle (σ : Type) (M : TeaModel σ) (m0 : σ) (rootDir : String)
    (verify : Bool) (seriesID : String) (fs0 : Fs) (tr : EngineTrace)
    (h : runBubbleTeaSnapshots M m0 rootDir verify seriesID fs0 = some tr) :
    ∃ m1, runUpdates M m0 (wrapCmd (M.init m0)) = some m1 ∧
      tr.views.getD 0 "" = M.view m1 := by
  simp only [runBubbleTeaSnapshots] at h
  split at h
  · exact absurd h (by simp)
  · rename_i gs hgs
    split at h
    · exact absurd h (by simp)
    · rename_i m1 hm1
      obtain ⟨-, suf, hv⟩ := engineGroups_trace M verify rootDir seriesID gs 0 m1 _ _ _ _ tr h
      exact ⟨m1, hm1, by simp [hv, List.getD]⟩

/-- Witness for the amended C2 on the counting component: snapshot 0 views
the settled post-init state `1`, not the initial state `0`. -/
theorem c2_init_settle_witness :
    ∃ m1, runUpdates Mcount 0 (wrapCmd (Mcount.init 0)) = some m1 ∧
      (EngineTrace.mk [("root/run.txt", ""), ("root/run_000", "B")]
        ["run_000"] ["B"] []).views.getD 0 "" = Mcount.view m1 :=
  c2_init_settle Nat Mcount 0 "root" false "run" [("root/run.txt", "")]
    (EngineTrace.mk [("root/run.txt", ""), ("root/run_000", "B")] ["run_000"] ["B"] [])
    (by decide)

end Snap
